import Mathlib

/-
Verification development for the air_screw blade-element performance
calculator (src/air_screw.js, two program variants in one file).

Modelling choices:
 - JavaScript numbers are modelled as `Option ℚ`: `some q` is the finite
   number q, `none` stands for a non-finite value (NaN, resulting from an
   `undefined` table lookup coerced into arithmetic, or division by zero).
 - `Math.PI`, `Math.sqrt` and `Math.atan` are external library primitives;
   they are passed in as an abstract `MathFns` record so the development
   stays computable.  All algebraic facts proved below hold for any
   interpretation of these primitives (extra hypotheses such as
   `atan 0 = 0` are stated explicitly where a claim needs them).
 - Loops are translated to structural recursion / `List` combinators with
   the same iteration count and the same per-iteration arithmetic.
-/

namespace AirScrew

/-- Addition of JS numbers: NaN absorbs. -/
def jadd : Option ℚ → Option ℚ → Option ℚ
  | some a, some b => some (a + b)
  | _, _ => none

/-- Subtraction of JS numbers: NaN absorbs. -/
def jsub : Option ℚ → Option ℚ → Option ℚ
  | some a, some b => some (a - b)
  | _, _ => none

/-- Multiplication of JS numbers: NaN absorbs. -/
def jmul : Option ℚ → Option ℚ → Option ℚ
  | some a, some b => some (a * b)
  | _, _ => none

/-- Division of JS numbers: NaN absorbs, and division by zero is
non-finite (JS yields NaN or ±Infinity there; both are modelled as
absence of a finite value). -/
def jdiv : Option ℚ → Option ℚ → Option ℚ
  | some a, some b => if b = 0 then none else some (a / b)
  | _, _ => none

@[simp] theorem jadd_some_some (a b : ℚ) : jadd (some a) (some b) = some (a + b) := rfl

@[simp] theorem jadd_none_right (x : Option ℚ) : jadd x none = none := by cases x <;> rfl

@[simp] theorem jadd_none_left (x : Option ℚ) : jadd none x = none := rfl

@[simp] theorem jsub_some_some (a b : ℚ) : jsub (some a) (some b) = some (a - b) := rfl

@[simp] theorem jmul_some_some (a b : ℚ) : jmul (some a) (some b) = some (a * b) := rfl

@[simp] theorem jmul_none_right (x : Option ℚ) : jmul x none = none := by cases x <;> rfl

@[simp] theorem jmul_none_left (x : Option ℚ) : jmul none x = none := rfl

@[simp] theorem jdiv_none_left (x : Option ℚ) : jdiv none x = none := rfl

@[simp] theorem jdiv_none_right (x : Option ℚ) : jdiv x none = none := by cases x <;> rfl

theorem jdiv_some_some (a b : ℚ) :
    jdiv (some a) (some b) = if b = 0 then none else some (a / b) := rfl

/-- Scan loop of `interp` (`for(let i = 0; i < size; i++)` with
`i1 = i + 1`): at position `i` with `fuel` iterations left, test
`VX[i1] > X`; on success return the linear formula computed with JS
arithmetic (an out-of-range `VY` access would make it NaN), otherwise
advance.  Falling off the end of the loop returns `undefined` (`none`);
an out-of-range `VX[i1]` compares false in JS, so the loop just keeps
going, which the `none` branch reproduces. -/
def interpAux (VX VY : List ℚ) (X : ℚ) : ℕ → ℕ → Option ℚ
  | 0, _ => none
  | fuel + 1, i =>
    match VX[i + 1]? with
    | some xi1 =>
      if X < xi1 then
        jadd VY[i]? (jmul (jdiv (jsub VY[i + 1]? VY[i]?) (jsub (some xi1) VX[i]?))
          (jsub (some X) VX[i]?))
      else interpAux VX VY X fuel (i + 1)
    | none => interpAux VX VY X fuel (i + 1)

/-- One-dimensional linear interpolation (`interp` in the source). -/
def interp (VX VY : List ℚ) (X : ℚ) : Option ℚ :=
  interpAux VX VY X VX.length 0

/-- Interpolation at a possibly non-finite query (JS: every comparison
with NaN is false, so the scan falls through and returns undefined). -/
def jinterp (VX VY : List ℚ) (X : Option ℚ) : Option ℚ :=
  match X with
  | some x => interp VX VY x
  | none => none

/-- Abstract interface to the JS Math library primitives used by the
program. -/
structure MathFns where
  PI : ℚ
  sqrt : ℚ → ℚ
  atan : ℚ → ℚ

/-- One sample of the speed distribution: radius of the section
midpoint, resultant local velocity, and local angle of attack in
degrees (non-finite when the tangential velocity is zero and the JS
division produced a non-finite value). -/
structure SectionSample where
  range : ℚ
  localVelocity : ℚ
  localAoA : Option ℚ
deriving DecidableEq

/-- Loop body of `getSpeedDistribution` (variant 1): N iterations,
midpoint radius advancing by dR each time. -/
def speedDistLoop1 (m : MathFns) (omega v0 dR : ℚ) : ℕ → ℚ → List SectionSample
  | 0, _ => []
  | n + 1, localR =>
    let localV := omega * localR
    let totalV := m.sqrt (v0 * v0 + localV * localV)
    let localAoA := Option.map (fun q => -m.atan q * (573 / 10)) (jdiv (some v0) (some localV))
    ⟨localR, totalV, localAoA⟩ :: speedDistLoop1 m omega v0 dR n (localR + dR)

/-- Variant 1 `getSpeedDistribution`: revolutions-per-second convention,
angular speed `2π·RPM`. -/
def getSpeedDistribution1 (m : MathFns) (RPM R v0 : ℚ) (N : ℕ) : List SectionSample :=
  let omega := 2 * m.PI * RPM
  let dR := R / (N : ℚ)
  speedDistLoop1 m omega v0 dR N (dR * (1 / 2))

/-- Loop body of `getSpeedDistribution` (variant 2); textually identical
to the variant 1 loop, kept separate to mirror the two source
functions. -/
def speedDistLoop2 (m : MathFns) (omega v0 dR : ℚ) : ℕ → ℚ → List SectionSample
  | 0, _ => []
  | n + 1, localR =>
    let localV := omega * localR
    let totalV := m.sqrt (v0 * v0 + localV * localV)
    let localAoA := Option.map (fun q => -m.atan q * (573 / 10)) (jdiv (some v0) (some localV))
    ⟨localR, totalV, localAoA⟩ :: speedDistLoop2 m omega v0 dR n (localR + dR)

/-- Variant 2 `getSpeedDistribution`: revolutions-per-minute convention,
angular speed `2π·RPM/60`. -/
def getSpeedDistribution2 (m : MathFns) (RPM R v0 : ℚ) (N : ℕ) : List SectionSample :=
  let omega := 2 * m.PI * RPM / 60
  let dR := R / (N : ℚ)
  speedDistLoop2 m omega v0 dR N (dR * (1 / 2))

/-- Per-section force contributions pushed into `forceDistribution`. -/
structure SectionForce where
  thrust : Option ℚ
  drag : Option ℚ
  torque : Option ℚ
deriving DecidableEq

/-- Running totals of `getSingleBladeForces`. -/
structure BladeSummary where
  totalThrust : Option ℚ
  totalDrag : Option ℚ
  totalTorque : Option ℚ
deriving DecidableEq

/-- Return value of `getSingleBladeForces`. -/
structure BladeForces where
  speedDistribution : List SectionSample
  forceDistribution : List SectionForce
  summary : BladeSummary
deriving DecidableEq

/-- Body of the force loop in variant 1 `getSingleBladeForces` (polar
drag model `Cxa = Cx0 + aPolar·Cya²`), for one section sample. -/
def sectionForce1 (RX AX SX : List ℚ) (Cx0 Ro : ℚ) (AX_CY CY POLAR : List ℚ)
    (dAlpha : Option ℚ) (s : SectionSample) : SectionForce :=
  let localQ := (1 / 2) * Ro * s.localVelocity * s.localVelocity
  let bladeSectionArea := interp RX SX s.range
  let bladeSectionAoA := interp RX AX s.range
  let localQS := jmul bladeSectionArea (some localQ)
  let totalAoA := jadd (jadd bladeSectionAoA s.localAoA) dAlpha
  let Cya := jinterp AX_CY CY totalAoA
  let aPolar := jinterp AX_CY POLAR totalAoA
  let Cxa := jadd (some Cx0) (jmul aPolar (jmul Cya Cya))
  let localThrust := jmul Cya localQS
  let localDrag := jmul Cxa localQS
  ⟨localThrust, localDrag, jmul localDrag (some s.range)⟩

/-- Body of the force loop in variant 2 `getSingleBladeForces` (direct
drag table `Cxa = interp(AX_CY, CX, totalAoA)`), for one section
sample. -/
def sectionForce2 (RX AX SX : List ℚ) (Ro : ℚ) (AX_CY CY CX : List ℚ)
    (dAlpha : Option ℚ) (s : SectionSample) : SectionForce :=
  let localQ := (1 / 2) * Ro * s.localVelocity * s.localVelocity
  let bladeSectionArea := interp RX SX s.range
  let bladeSectionAoA := interp RX AX s.range
  let localQS := jmul bladeSectionArea (some localQ)
  let totalAoA := jadd (jadd bladeSectionAoA s.localAoA) dAlpha
  let Cya := jinterp AX_CY CY totalAoA
  let Cxa := jinterp AX_CY CX totalAoA
  let localThrust := jmul Cya localQS
  let localDrag := jmul Cxa localQS
  ⟨localThrust, localDrag, jmul localDrag (some s.range)⟩

/-- Accumulator update of the force loop, exactly as written in the
source (both variants): `totalThrust += localThrust`,
`totalDrag += totalDrag`, `totalTorque += localTorque`. -/
def updateSummary (acc : BladeSummary) (f : SectionForce) : BladeSummary :=
  ⟨jadd acc.totalThrust f.thrust, jadd acc.totalDrag acc.totalDrag,
    jadd acc.totalTorque f.torque⟩

/-- Variant 1 `getSingleBladeForces`.  The JS loop builds
`forceDistribution` and the totals in one pass over
`speedDistribution`; since each pushed record depends only on the
current sample, this equals a map followed by a fold. -/
def getSingleBladeForces1 (m : MathFns) (RX AX SX : List ℚ) (Cx0 RPM v0 Ro : ℚ)
    (AX_CY CY POLAR VX dAVX : List ℚ) : BladeForces :=
  let N := RX.length
  let R := RX.getD (N - 1) 0
  let dAlpha := if VX.length ≠ 0 then interp VX dAVX v0 else some 0
  let speedDistribution := getSpeedDistribution1 m RPM R v0 N
  let forceDistribution :=
    speedDistribution.map (sectionForce1 RX AX SX Cx0 Ro AX_CY CY POLAR dAlpha)
  let summary := forceDistribution.foldl updateSummary ⟨some 0, some 0, some 0⟩
  ⟨speedDistribution, forceDistribution, summary⟩

/-- Variant 2 `getSingleBladeForces`. -/
def getSingleBladeForces2 (m : MathFns) (RX AX SX : List ℚ) (RPM v0 Ro : ℚ)
    (AX_CY CY CX VX dAVX : List ℚ) : BladeForces :=
  let N := RX.length
  let R := RX.getD (N - 1) 0
  let dAlpha := if VX.length ≠ 0 then interp VX dAVX v0 else some 0
  let speedDistribution := getSpeedDistribution2 m RPM R v0 N
  let forceDistribution :=
    speedDistribution.map (sectionForce2 RX AX SX Ro AX_CY CY CX dAlpha)
  let summary := forceDistribution.foldl updateSummary ⟨some 0, some 0, some 0⟩
  ⟨speedDistribution, forceDistribution, summary⟩

/-- Geometry group of the input configuration. -/
structure Geometry where
  nBlade : ℚ
  RX : List ℚ
  SX : List ℚ
  AX : List ℚ
  VX : List ℚ
  dAVX : List ℚ
deriving DecidableEq

/-- Aerodynamics group, variant 1 (zero-lift drag + polar factor). -/
structure Aerodynamics1 where
  AX_CY : List ℚ
  Cx0 : ℚ
  CY : List ℚ
  POLAR : List ℚ
deriving DecidableEq

/-- Aerodynamics group, variant 2 (direct drag-coefficient table). -/
structure Aerodynamics2 where
  AX_CY : List ℚ
  CY : List ℚ
  CX : List ℚ
deriving DecidableEq

/-- Environment group of the input configuration. -/
structure Environment where
  RPM : ℚ
  v0 : ℚ
  v1 : ℚ
  nV : ℕ
  Ro : ℚ
deriving DecidableEq

/-- Full input configuration, variant 1. -/
structure InitData1 where
  geometry : Geometry
  aerodynamics : Aerodynamics1
  environment : Environment
deriving DecidableEq

/-- Full input configuration, variant 2. -/
structure InitData2 where
  geometry : Geometry
  aerodynamics : Aerodynamics2
  environment : Environment
deriving DecidableEq

/-- One row of the performance sweep output. -/
structure SpeedPoint where
  V : ℚ
  thrust : Option ℚ
  torque : Option ℚ
  power : Option ℚ
  thrustCoeff : Option ℚ
  thrust2power : Option ℚ
deriving DecidableEq

/-- Body of the sweep loop, common to both variants once the blade
summary at the current forward speed is known: scale by blade count,
derive power, thrust coefficient and thrust-to-power ratio, and report
the speed in km/h. -/
def mkSpeedPoint (s : BladeSummary) (nBlade omega area Ro V : ℚ) : SpeedPoint :=
  let Q := (1 / 2) * Ro * V * V
  let thrust := jmul s.totalThrust (some nBlade)
  let torque := jmul s.totalTorque (some nBlade)
  let power := jmul torque (some omega)
  ⟨V * (36 / 10), thrust, torque, power, jdiv thrust (some (area * Q)), jdiv thrust power⟩

/-- Variant 1 `getSpeedThrustPerformance`.  The JS loop runs `nV + 1`
times with `V` starting at `v0` and advancing by `dV = (v1-v0)/nV`
after each point, so point `i` is taken at `V = v0 + i·dV` (exact in
rational arithmetic). -/
def getSpeedThrustPerformance1 (m : MathFns) (initData : InitData1) : List SpeedPoint :=
  let g := initData.geometry
  let a := initData.aerodynamics
  let e := initData.environment
  let omega := 2 * m.PI * e.RPM
  let rad := g.RX.getD (g.RX.length - 1) 0
  let area := m.PI * rad * rad
  let dV := (e.v1 - e.v0) / (e.nV : ℚ)
  (List.range (e.nV + 1)).map (fun i : ℕ =>
    let V := e.v0 + (i : ℚ) * dV
    let bp := getSingleBladeForces1 m g.RX g.AX g.SX a.Cx0 e.RPM V e.Ro
      a.AX_CY a.CY a.POLAR g.VX g.dAVX
    mkSpeedPoint bp.summary g.nBlade omega area e.Ro V)

/-- Variant 2 `getSpeedThrustPerformance`. -/
def getSpeedThrustPerformance2 (m : MathFns) (initData : InitData2) : List SpeedPoint :=
  let g := initData.geometry
  let a := initData.aerodynamics
  let e := initData.environment
  let omega := 2 * m.PI * e.RPM / 60
  let rad := g.RX.getD (g.RX.length - 1) 0
  let area := m.PI * rad * rad
  let dV := (e.v1 - e.v0) / (e.nV : ℚ)
  (List.range (e.nV + 1)).map (fun i : ℕ =>
    let V := e.v0 + (i : ℚ) * dV
    let bp := getSingleBladeForces2 m g.RX g.AX g.SX e.RPM V e.Ro
      a.AX_CY a.CY a.CX g.VX g.dAVX
    mkSpeedPoint bp.summary g.nBlade omega area e.Ro V)

/-- Reference interpretation of the Math primitives used to evaluate
concrete inputs (PI stands in as 3; sqrt and atan are inessential to the
facts evaluated, and atan sends 0 to 0 like the real arctangent). -/
def refMath : MathFns := ⟨3, fun q => q, fun _ => 0⟩

/- Helper lemmas. -/

theorem foldl_totalDrag_zero (l : List SectionForce) (acc : BladeSummary)
    (h : acc.totalDrag = some 0) :
    (l.foldl updateSummary acc).totalDrag = some 0 := by
  induction l generalizing acc with
  | nil => exact h
  | cons f t ih => exact ih _ (by simp [updateSummary, h])

theorem speedDistLoop2_eq_loop1 (m : MathFns) (omega v0 dR : ℚ) :
    ∀ (n : ℕ) (localR : ℚ),
      speedDistLoop2 m omega v0 dR n localR = speedDistLoop1 m omega v0 dR n localR := by
  intro n
  induction n with
  | zero => intro localR; rfl
  | succ k ih => intro localR; simp [speedDistLoop1, speedDistLoop2, ih]

/-- C1: in both program variants, the drag accumulator updates itself
(`totalDrag += totalDrag`) starting from zero, so the summary's
totalDrag is 0 for every input configuration. -/
theorem C1_totalDrag_always_zero (m : MathFns) (RX AX SX : List ℚ)
    (Cx0 RPM v0 Ro : ℚ) (AX_CY CY POLAR CX VX dAVX : List ℚ) :
    (getSingleBladeForces1 m RX AX SX Cx0 RPM v0 Ro AX_CY CY POLAR VX dAVX).summary.totalDrag
      = some 0 ∧
    (getSingleBladeForces2 m RX AX SX RPM v0 Ro AX_CY CY CX VX dAVX).summary.totalDrag
      = some 0 := by
  constructor <;>
    exact foldl_totalDrag_zero _ _ rfl

/-- C7: the two variants of getSpeedDistribution differ only by the
factor-60 rotational-speed convention: variant 1 at rotational speed RPM
produces exactly the same section samples as variant 2 at rotational
speed 60·RPM, for every tip radius, forward speed and section count. -/
theorem C7_variant_equivalence (m : MathFns) (RPM R v0 : ℚ) (N : ℕ) :
    getSpeedDistribution1 m RPM R v0 N = getSpeedDistribution2 m (60 * RPM) R v0 N := by
  have homega : 2 * m.PI * (60 * RPM) / 60 = 2 * m.PI * RPM := by ring
  simp only [getSpeedDistribution1, getSpeedDistribution2, speedDistLoop2_eq_loop1, homega]

theorem sectionForce1_double_Ro (RX AX SX : List ℚ) (Cx0 Ro : ℚ)
    (AX_CY CY POLAR : List ℚ) (dAlpha : Option ℚ) (s : SectionSample) :
    (fun f : SectionForce => (f.thrust, f.drag))
        (sectionForce1 RX AX SX Cx0 (2 * Ro) AX_CY CY POLAR dAlpha s)
      = (fun f : SectionForce => (jmul (some 2) f.thrust, jmul (some 2) f.drag))
        (sectionForce1 RX AX SX Cx0 Ro AX_CY CY POLAR dAlpha s) := by
  simp only [sectionForce1]
  cases hA : interp RX SX s.range with
  | none => simp [jmul]
  | some a =>
    cases hC : jinterp AX_CY CY (jadd (jadd (interp RX AX s.range) s.localAoA) dAlpha) with
    | none => simp [jmul]
    | some c =>
      cases hP : jinterp AX_CY POLAR (jadd (jadd (interp RX AX s.range) s.localAoA) dAlpha) with
      | none =>
        simp [jmul, jadd]
        ring
      | some p =>
        simp only [jmul, jadd, Prod.mk.injEq, Option.some.injEq]
        constructor <;> ring

theorem sectionForce2_double_Ro (RX AX SX : List ℚ) (Ro : ℚ)
    (AX_CY CY CX : List ℚ) (dAlpha : Option ℚ) (s : SectionSample) :
    (fun f : SectionForce => (f.thrust, f.drag))
        (sectionForce2 RX AX SX (2 * Ro) AX_CY CY CX dAlpha s)
      = (fun f : SectionForce => (jmul (some 2) f.thrust, jmul (some 2) f.drag))
        (sectionForce2 RX AX SX Ro AX_CY CY CX dAlpha s) := by
  simp only [sectionForce2]
  cases hA : interp RX SX s.range with
  | none => simp [jmul]
  | some a =>
    cases hC : jinterp AX_CY CY (jadd (jadd (interp RX AX s.range) s.localAoA) dAlpha) with
    | none =>
      cases hX : jinterp AX_CY CX (jadd (jadd (interp RX AX s.range) s.localAoA) dAlpha) with
      | none => simp [jmul]
      | some x =>
        simp [jmul]
        ring
    | some c =>
      cases hX : jinterp AX_CY CX (jadd (jadd (interp RX AX s.range) s.localAoA) dAlpha) with
      | none =>
        simp [jmul]
        ring
      | some x =>
        simp only [jmul, Prod.mk.injEq, Option.some.injEq]
        constructor <;> ring

/-- C9: for fixed geometry, aerodynamics, rotational speed and forward
speed, doubling the air density exactly doubles every section's local
thrust and local drag, in both program variants. -/
theorem C9_density_linearity (m : MathFns) (RX AX SX : List ℚ)
    (Cx0 RPM v0 Ro : ℚ) (AX_CY CY POLAR CX VX dAVX : List ℚ) :
    ((getSingleBladeForces1 m RX AX SX Cx0 RPM v0 (2 * Ro) AX_CY CY POLAR VX dAVX).forceDistribution.map
        (fun f => (f.thrust, f.drag))
      = (getSingleBladeForces1 m RX AX SX Cx0 RPM v0 Ro AX_CY CY POLAR VX dAVX).forceDistribution.map
        (fun f => (jmul (some 2) f.thrust, jmul (some 2) f.drag))) ∧
    ((getSingleBladeForces2 m RX AX SX RPM v0 (2 * Ro) AX_CY CY CX VX dAVX).forceDistribution.map
        (fun f => (f.thrust, f.drag))
      = (getSingleBladeForces2 m RX AX SX RPM v0 Ro AX_CY CY CX VX dAVX).forceDistribution.map
        (fun f => (jmul (some 2) f.thrust, jmul (some 2) f.drag))) := by
  constructor <;>
  · simp only [getSingleBladeForces1, getSingleBladeForces2, List.map_map]
    apply List.map_congr_left
    intro s _
    first
      | exact sectionForce1_double_Ro RX AX SX Cx0 Ro AX_CY CY POLAR _ s
      | exact sectionForce2_double_Ro RX AX SX Ro AX_CY CY CX _ s

theorem speedDistLoop1_localAoA_zero (m : MathFns) (omega dR : ℚ)
    (hatan : m.atan 0 = 0) (homega : omega ≠ 0) (hdR : 0 < dR) :
    ∀ (n : ℕ) (localR : ℚ), 0 < localR →
      ∀ s ∈ speedDistLoop1 m omega 0 dR n localR, s.localAoA = some 0 := by
  intro n
  induction n with
  | zero =>
    intro localR _ s hs
    simp [speedDistLoop1] at hs
  | succ k ih =>
    intro localR hR s hs
    simp only [speedDistLoop1, List.mem_cons] at hs
    rcases hs with h | h
    · have hV : omega * localR ≠ 0 := mul_ne_zero homega (ne_of_gt hR)
      subst h
      simp [jdiv, hV, hatan]
    · exact ih (localR + dR) (by linarith) s h

/-- C10 counterexample: at rotational speed 0 (with forward speed 0,
tip radius 1 > 0, N = 1 section) the tangential velocity is 0, the JS
quotient 0/0 is NaN, and the section's localAoA is the non-finite value,
not 0 — in both variants.  The result does not depend on the choice of
Math primitives, since the non-finite quotient short-circuits atan. -/
theorem C10_counterexample :
    ((getSpeedDistribution1 refMath 0 1 0 1).map (fun s => s.localAoA) = [none] ∧
      (getSpeedDistribution1 refMath 0 1 0 1).map (fun s => s.localAoA) ≠ [some 0]) ∧
    ((getSpeedDistribution2 refMath 0 1 0 1).map (fun s => s.localAoA) = [none] ∧
      (getSpeedDistribution2 refMath 0 1 0 1).map (fun s => s.localAoA) ≠ [some 0]) := by
  have h1 : (getSpeedDistribution1 refMath 0 1 0 1).map (fun s => s.localAoA) = [none] := by
    norm_num [getSpeedDistribution1, speedDistLoop1, refMath, jdiv]
  have h2 : (getSpeedDistribution2 refMath 0 1 0 1).map (fun s => s.localAoA) = [none] := by
    norm_num [getSpeedDistribution2, speedDistLoop2, refMath, jdiv]
  exact ⟨⟨h1, by rw [h1]; decide⟩, h2, by rw [h2]; decide⟩

/-- C10 amended: for forward speed 0, every NONZERO rotational speed,
positive tip radius and section count N ≥ 1, every section sample of
getSpeedDistribution (either variant) has local angle of attack exactly
0 degrees; stated for any interpretation of the Math primitives with
atan 0 = 0 and PI ≠ 0 (both true of the real functions). -/
theorem C10_amended (m : MathFns) (RPM R v0 : ℚ) (N : ℕ)
    (hatan : m.atan 0 = 0) (hPI : m.PI ≠ 0) (hRPM : RPM ≠ 0)
    (hR : 0 < R) (hN : 1 ≤ N) (hv0 : v0 = 0) :
    (∀ s ∈ getSpeedDistribution1 m RPM R v0 N, s.localAoA = some 0) ∧
    (∀ s ∈ getSpeedDistribution2 m RPM R v0 N, s.localAoA = some 0) := by
  subst hv0
  have hdR : 0 < R / (N : ℚ) := by
    apply div_pos hR
    exact_mod_cast Nat.lt_of_lt_of_le Nat.zero_lt_one hN
  have hmid : 0 < R / (N : ℚ) * (1 / 2) := by linarith
  constructor
  · exact speedDistLoop1_localAoA_zero m (2 * m.PI * RPM) (R / (N : ℚ)) hatan
      (mul_ne_zero (mul_ne_zero two_ne_zero hPI) hRPM) hdR N _ hmid
  · intro s hs
    rw [getSpeedDistribution2, speedDistLoop2_eq_loop1] at hs
    exact speedDistLoop1_localAoA_zero m (2 * m.PI * RPM / 60) (R / (N : ℚ)) hatan
      (div_ne_zero (mul_ne_zero (mul_ne_zero two_ne_zero hPI) hRPM) (by norm_num)) hdR N _ hmid s hs

/-- C10 witness: the amended statement applied at RPM = 1, R = 1, N = 1
with the reference Math primitives. -/
theorem C10_amended_witness :
    refMath.atan 0 = 0 ∧ refMath.PI ≠ 0 ∧ (1 : ℚ) ≠ 0 ∧ (0 : ℚ) < 1 ∧ 1 ≤ 1 ∧
    ((∀ s ∈ getSpeedDistribution1 refMath 1 1 0 1, s.localAoA = some 0) ∧
      (∀ s ∈ getSpeedDistribution2 refMath 1 1 0 1, s.localAoA = some 0)) :=
  ⟨rfl, by decide, one_ne_zero, one_pos, le_refl 1,
    C10_amended refMath 1 1 0 1 rfl (by decide) one_ne_zero one_pos (le_refl 1) rfl⟩

theorem getElem?_eq_some_getD (l : List ℚ) (i : ℕ) (h : i < l.length) :
    l[i]? = some (l.getD i 0) := by
  rw [List.getElem?_eq_getElem h, List.getD_eq_getElem l 0 h]

theorem pairwise_getD_lt (VX : List ℚ) (hmono : VX.Pairwise (· < ·))
    (i j : ℕ) (hij : i < j) (hj : j < VX.length) : VX.getD i 0 < VX.getD j 0 := by
  rw [List.getD_eq_getElem VX 0 (lt_trans hij hj), List.getD_eq_getElem VX 0 hj]
  exact List.pairwise_iff_getElem.mp hmono i j (lt_trans hij hj) hj hij

theorem pairwise_getD_le (VX : List ℚ) (hmono : VX.Pairwise (· < ·))
    (i j : ℕ) (hij : i ≤ j) (hj : j < VX.length) : VX.getD i 0 ≤ VX.getD j 0 := by
  rcases eq_or_lt_of_le hij with rfl | h
  · exact le_refl _
  · exact le_of_lt (pairwise_getD_lt VX hmono i j h hj)

theorem interpAux_succ (VX VY : List ℚ) (X : ℚ) (f i : ℕ) :
    interpAux VX VY X (f + 1) i
      = match VX[i + 1]? with
        | some xi1 =>
          if X < xi1 then
            jadd VY[i]? (jmul (jdiv (jsub VY[i + 1]? VY[i]?) (jsub (some xi1) VX[i]?))
              (jsub (some X) VX[i]?))
          else interpAux VX VY X f (i + 1)
        | none => interpAux VX VY X f (i + 1) := rfl

theorem interpAux_step (VX VY : List ℚ) (X : ℚ) (f i : ℕ) (xi1 : ℚ)
    (h : VX[i + 1]? = some xi1) :
    interpAux VX VY X (f + 1) i
      = if X < xi1 then
          jadd VY[i]? (jmul (jdiv (jsub VY[i + 1]? VY[i]?) (jsub (some xi1) VX[i]?))
            (jsub (some X) VX[i]?))
        else interpAux VX VY X f (i + 1) := by
  simp only [interpAux_succ, h]

theorem interpAux_step_none (VX VY : List ℚ) (X : ℚ) (f i : ℕ)
    (h : VX[i + 1]? = none) :
    interpAux VX VY X (f + 1) i = interpAux VX VY X f (i + 1) := by
  simp only [interpAux_succ, h]

theorem interpAux_eq_some (VX VY : List ℚ) (X : ℚ)
    (hVY : VY.length = VX.length) (hmono : VX.Pairwise (· < ·)) :
    ∀ (fuel i : ℕ), fuel + i = VX.length →
      ∀ j, i ≤ j → j + 1 < VX.length → X < VX.getD (j + 1) 0 →
      ∃ k, i ≤ k ∧ k + 1 < VX.length ∧ X < VX.getD (k + 1) 0 ∧
        (∀ t, i ≤ t → t < k → ¬ X < VX.getD (t + 1) 0) ∧
        interpAux VX VY X fuel i
          = some (VY.getD k 0
              + (VY.getD (k + 1) 0 - VY.getD k 0) / (VX.getD (k + 1) 0 - VX.getD k 0)
                * (X - VX.getD k 0)) := by
  intro fuel
  induction fuel with
  | zero =>
    intro i hlen j hij hj _
    omega
  | succ f ih =>
    intro i hlen j hij hj hXj
    have hi1 : i + 1 < VX.length := by omega
    have hVXi1 : VX[i + 1]? = some (VX.getD (i + 1) 0) := getElem?_eq_some_getD VX (i + 1) hi1
    by_cases hc : X < VX.getD (i + 1) 0
    · refine ⟨i, le_refl i, hi1, hc, fun t ht1 ht2 => absurd (lt_of_le_of_lt ht1 ht2) (lt_irrefl i), ?_⟩
      have hVXi : VX[i]? = some (VX.getD i 0) := getElem?_eq_some_getD VX i (by omega)
      have hVYi : VY[i]? = some (VY.getD i 0) := getElem?_eq_some_getD VY i (by omega)
      have hVYi1 : VY[i + 1]? = some (VY.getD (i + 1) 0) :=
        getElem?_eq_some_getD VY (i + 1) (by omega)
      have hne : VX.getD (i + 1) 0 - VX.getD i 0 ≠ 0 :=
        sub_ne_zero.mpr (ne_of_gt (pairwise_getD_lt VX hmono i (i + 1) (by omega) hi1))
      rw [interpAux_step VX VY X f i _ hVXi1, if_pos hc, hVXi, hVYi, hVYi1]
      simp only [jsub_some_some]
      rw [jdiv_some_some, if_neg hne]
      simp only [jmul_some_some, jadd_some_some]
    · have hij2 : i + 1 ≤ j := by
        rcases eq_or_lt_of_le hij with rfl | h
        · exact absurd hXj hc
        · omega
      obtain ⟨k, hk1, hk2, hk3, hk4, hk5⟩ := ih (i + 1) (by omega) j hij2 hj hXj
      refine ⟨k, by omega, hk2, hk3, ?_, ?_⟩
      · intro t ht1 ht2
        rcases eq_or_lt_of_le ht1 with rfl | h
        · exact hc
        · exact hk4 t (by omega) ht2
      · rw [interpAux_step VX VY X f i _ hVXi1, if_neg hc]
        exact hk5

theorem interpAux_eq_none (VX VY : List ℚ) (X : ℚ) :
    ∀ (fuel i : ℕ), (∀ j, i ≤ j → j + 1 < VX.length → ¬ X < VX.getD (j + 1) 0) →
      interpAux VX VY X fuel i = none := by
  intro fuel
  induction fuel with
  | zero => intro i _; rfl
  | succ f ih =>
    intro i h
    cases hVX : VX[i + 1]? with
    | none =>
      rw [interpAux_step_none VX VY X f i hVX]
      exact ih (i + 1) (fun j hj => h j (by omega))
    | some v =>
      have hlt : i + 1 < VX.length := by
        by_contra hge
        rw [List.getElem?_eq_none_iff.mpr (by omega)] at hVX
        exact Option.noConfusion hVX
      have hv : some v = some (VX.getD (i + 1) 0) := by
        rw [← hVX]
        exact getElem?_eq_some_getD VX (i + 1) hlt
      rw [interpAux_step VX VY X f i v hVX,
        if_neg (by rw [Option.some.injEq] at hv; rw [hv]; exact h i (le_refl i) hlt)]
      exact ih (i + 1) (fun j hj => h j (by omega))

/-- C3: for a strictly increasing breakpoint table of length at least 2
and a query strictly below the last breakpoint, interp returns
`y[k] + (y[k+1]-y[k])/(x[k+1]-x[k])·(X-x[k])` where `k` is the first
index with `x[k+1] > X`; a query below `x[1]` therefore uses indices 0
and 1, extrapolating below the table with the first segment's slope. -/
theorem C3_interp_formula (VX VY : List ℚ) (X : ℚ)
    (h2 : 2 ≤ VX.length) (hVY : VY.length = VX.length)
    (hmono : VX.Pairwise (· < ·)) (hX : X < VX.getD (VX.length - 1) 0) :
    ∃ k, k + 1 < VX.length ∧ X < VX.getD (k + 1) 0 ∧
      (∀ t, t < k → ¬ X < VX.getD (t + 1) 0) ∧
      interp VX VY X
        = some (VY.getD k 0
            + (VY.getD (k + 1) 0 - VY.getD k 0) / (VX.getD (k + 1) 0 - VX.getD k 0)
              * (X - VX.getD k 0)) := by
  have hj1 : VX.length - 2 + 1 = VX.length - 1 := by omega
  obtain ⟨k, _, hk2, hk3, hk4, hk5⟩ :=
    interpAux_eq_some VX VY X hVY hmono VX.length 0 (by omega)
      (VX.length - 2) (by omega) (by omega) (by rw [hj1]; exact hX)
  exact ⟨k, hk2, hk3, fun t ht => hk4 t (Nat.zero_le t) ht, hk5⟩

/-- C3 witness: on the two-point table x = [0,1], y = [0,10] the formula
instance gives interp = 5 at X = 1/2 and interp = 0 at X = 0. -/
theorem C3_interp_formula_witness :
    interp [0, 1] [0, 10] (1 / 2 : ℚ) = some 5 ∧ interp [0, 1] [0, 10] (0 : ℚ) = some 0 := by
  constructor
  · obtain ⟨k, hk1, _, _, hk5⟩ :=
      C3_interp_formula [0, 1] [0, 10] (1 / 2) (by norm_num) (by norm_num)
        (by norm_num) (by norm_num)
    have hk : k = 0 := by simp at hk1; omega
    subst hk
    rw [hk5]
    norm_num
  · obtain ⟨k, hk1, _, _, hk5⟩ :=
      C3_interp_formula [0, 1] [0, 10] 0 (by norm_num) (by norm_num)
        (by norm_num) (by norm_num)
    have hk : k = 0 := by simp at hk1; omega
    subst hk
    rw [hk5]
    norm_num

/-- C4 counterexample: on table x = [0,1], y = [0,10], the query X = 1
does not exceed the last breakpoint, yet interp signals absence (the
loop's strict comparison admits no segment), refuting "a numeric result
for every query not exceeding the last breakpoint". -/
theorem C4_counterexample :
    interp [0, 1] [0, 10] (1 : ℚ) = none ∧ ¬ ((1 : ℚ) > 1) := by
  constructor
  · norm_num [interp, interpAux, jadd, jsub, jmul, jdiv]
  · norm_num

/-- C4 amended: for a strictly increasing table of length at least 2
(with matching y-table), interp signals "no value" exactly when the
query is greater than OR EQUAL TO the last breakpoint; for every query
strictly below the last breakpoint it returns a numeric result. -/
theorem C4_absence_iff (VX VY : List ℚ) (X : ℚ)
    (h2 : 2 ≤ VX.length) (hVY : VY.length = VX.length)
    (hmono : VX.Pairwise (· < ·)) :
    interp VX VY X = none ↔ VX.getD (VX.length - 1) 0 ≤ X := by
  constructor
  · intro hnone
    by_contra hlt
    push_neg at hlt
    have hj1 : VX.length - 2 + 1 = VX.length - 1 := by omega
    obtain ⟨k, _, _, _, _, hk5⟩ :=
      interpAux_eq_some VX VY X hVY hmono VX.length 0 (by omega)
        (VX.length - 2) (by omega) (by omega) (by rw [hj1]; exact hlt)
    rw [interp] at hnone
    rw [hnone] at hk5
    exact Option.noConfusion hk5
  · intro hge
    apply interpAux_eq_none
    intro j _ hjlen
    push_neg
    exact le_trans (pairwise_getD_le VX hmono (j + 1) (VX.length - 1) (by omega) (by omega)) hge

/-- C4 witness: the amended statement applied on the table x = [0,1],
y = [0,10]: the query 5 (beyond the last breakpoint) yields absence. -/
theorem C4_absence_iff_witness : interp [0, 1] [0, 10] (5 : ℚ) = none :=
  (C4_absence_iff [0, 1] [0, 10] 5 (by norm_num) (by norm_num) (by norm_num)).mpr (by norm_num)

/-- Pointwise scaling of a sweep row by a factor k: thrust, torque,
power and thrust coefficient are multiplied by k; the reported speed and
the thrust-to-power ratio are untouched. -/
def scalePoint (k : ℚ) (p : SpeedPoint) : SpeedPoint :=
  ⟨p.V, jmul (some k) p.thrust, jmul (some k) p.torque, jmul (some k) p.power,
    jmul (some k) p.thrustCoeff, p.thrust2power⟩

/-- Variant 1 configuration with the blade count multiplied by k. -/
def scaleBlade1 (k : ℚ) (d : InitData1) : InitData1 :=
  ⟨⟨k * d.geometry.nBlade, d.geometry.RX, d.geometry.SX, d.geometry.AX,
      d.geometry.VX, d.geometry.dAVX⟩,
    d.aerodynamics, d.environment⟩

/-- Variant 2 configuration with the blade count multiplied by k. -/
def scaleBlade2 (k : ℚ) (d : InitData2) : InitData2 :=
  ⟨⟨k * d.geometry.nBlade, d.geometry.RX, d.geometry.SX, d.geometry.AX,
      d.geometry.VX, d.geometry.dAVX⟩,
    d.aerodynamics, d.environment⟩

theorem jdiv_scale (k T d : ℚ) (hk : k ≠ 0) :
    jdiv (some (k * T)) (some (k * d)) = jdiv (some T) (some d) := by
  by_cases hd : d = 0
  · rw [hd, mul_zero]
    simp [jdiv]
  · have h2 : k * d ≠ 0 := mul_ne_zero hk hd
    rw [jdiv_some_some, jdiv_some_some, if_neg hd, if_neg h2,
      mul_div_mul_left T d hk]

theorem jmul_some_jdiv (k T d : ℚ) :
    jmul (some k) (jdiv (some T) (some d)) = jdiv (some (k * T)) (some d) := by
  by_cases hd : d = 0
  · simp [jdiv, hd]
  · rw [jdiv_some_some, jdiv_some_some, if_neg hd, if_neg hd, jmul_some_some,
      mul_div_assoc]

theorem SpeedPoint_ext (p q : SpeedPoint) (h1 : p.V = q.V) (h2 : p.thrust = q.thrust)
    (h3 : p.torque = q.torque) (h4 : p.power = q.power)
    (h5 : p.thrustCoeff = q.thrustCoeff) (h6 : p.thrust2power = q.thrust2power) :
    p = q := by
  cases p
  cases q
  simp_all

theorem mkSpeedPoint_scale (s : BladeSummary) (k n omega area Ro V : ℚ) (hk : k ≠ 0) :
    mkSpeedPoint s (k * n) omega area Ro V = scalePoint k (mkSpeedPoint s n omega area Ro V) := by
  apply SpeedPoint_ext
  · simp [mkSpeedPoint, scalePoint]
  · simp only [mkSpeedPoint, scalePoint]
    cases hT : s.totalThrust with
    | none => simp
    | some T =>
      simp only [jmul_some_some, Option.some.injEq]
      ring
  · simp only [mkSpeedPoint, scalePoint]
    cases hQ : s.totalTorque with
    | none => simp
    | some t =>
      simp only [jmul_some_some, Option.some.injEq]
      ring
  · simp only [mkSpeedPoint, scalePoint]
    cases hQ : s.totalTorque with
    | none => simp
    | some t =>
      simp only [jmul_some_some, Option.some.injEq]
      ring
  · simp only [mkSpeedPoint, scalePoint]
    cases hT : s.totalThrust with
    | none => simp
    | some T =>
      simp only [jmul_some_some, jmul_some_jdiv]
      rw [show k * (T * n) = T * (k * n) from by ring]
  · simp only [mkSpeedPoint, scalePoint]
    cases hT : s.totalThrust with
    | none => simp
    | some T =>
      cases hQ : s.totalTorque with
      | none => simp
      | some t =>
        simp only [jmul_some_some]
        rw [show T * (k * n) = k * (T * n) from by ring,
          show t * (k * n) * omega = k * (t * n * omega) from by ring,
          jdiv_scale _ _ _ hk]

/-- Concrete variant 1 configuration with nonzero thrust used to probe
blade-count scaling: two sections, constant unit lift coefficient, zero
drag polar, one speed point at v0 = v1 = 1. -/
def dC5 : InitData1 :=
  ⟨⟨1, [0, 1], [1, 1], [0, 0], [], []⟩,
    ⟨[-1000, 0, 1000], 0, [1, 1, 1], [0, 0, 0]⟩,
    ⟨1, 1, 1, 0, 2⟩⟩

/-- Variant 2 analogue of the scaling probe configuration. -/
def dC5b : InitData2 :=
  ⟨⟨1, [0, 1], [1, 1], [0, 0], [], []⟩,
    ⟨[-1000, 0, 1000], [1, 1, 1], [0, 0, 0]⟩,
    ⟨1, 1, 1, 0, 2⟩⟩

theorem gSTP1_nV0 (m : MathFns) (d : InitData1) (h : d.environment.nV = 0) :
    getSpeedThrustPerformance1 m d
      = [mkSpeedPoint (getSingleBladeForces1 m d.geometry.RX d.geometry.AX d.geometry.SX
            d.aerodynamics.Cx0 d.environment.RPM d.environment.v0 d.environment.Ro
            d.aerodynamics.AX_CY d.aerodynamics.CY d.aerodynamics.POLAR
            d.geometry.VX d.geometry.dAVX).summary
          d.geometry.nBlade (2 * m.PI * d.environment.RPM)
          (m.PI * d.geometry.RX.getD (d.geometry.RX.length - 1) 0
            * d.geometry.RX.getD (d.geometry.RX.length - 1) 0)
          d.environment.Ro d.environment.v0] := by
  simp [getSpeedThrustPerformance1, h]

/-- C5 counterexample: doubling the blade count of a configuration with
nonzero thrust doubles the reported thrust coefficient (it is total
thrust over disc area times dynamic pressure, and total thrust scales
with blade count), so the thrust coefficient is NOT left unchanged. -/
theorem C5_counterexample :
    ((getSpeedThrustPerformance1 refMath (scaleBlade1 2 dC5)).map fun p => p.thrustCoeff)
      ≠ ((getSpeedThrustPerformance1 refMath dC5).map fun p => p.thrustCoeff) := by
  have hsum : (getSingleBladeForces1 refMath [0, 1] [0, 0] [1, 1] 0 1 1 2
      [-1000, 0, 1000] [1, 1, 1] [0, 0, 0] [] []).summary.totalThrust = some (3697 / 8) := by
    norm_num [getSingleBladeForces1, getSpeedDistribution1, speedDistLoop1, sectionForce1,
      updateSummary, interp, interpAux, jinterp, jadd, jsub, jmul, jdiv, refMath]
  have hPI : refMath.PI = 3 := rfl
  have h1 : ((getSpeedThrustPerformance1 refMath (scaleBlade1 2 dC5)).map fun p => p.thrustCoeff)
      = [some (3697 / 12)] := by
    rw [gSTP1_nV0 refMath (scaleBlade1 2 dC5) rfl]
    norm_num [scaleBlade1, dC5, mkSpeedPoint, hsum, hPI, jmul, jdiv, List.getD]
  have h2 : ((getSpeedThrustPerformance1 refMath dC5).map fun p => p.thrustCoeff)
      = [some (3697 / 24)] := by
    rw [gSTP1_nV0 refMath dC5 rfl]
    norm_num [dC5, mkSpeedPoint, hsum, hPI, jmul, jdiv, List.getD]
  rw [h1, h2]
  intro h
  norm_num at h

/-- C5 amended: multiplying the blade count by a positive integer k
multiplies each output point's thrust, torque, power AND thrust
coefficient by k, while leaving the forward speed and the
thrust-to-power ratio unchanged — in both program variants. -/
theorem C5_blade_scaling (m : MathFns) (d1 : InitData1) (d2 : InitData2)
    (k : ℕ) (hk : 0 < k) :
    getSpeedThrustPerformance1 m (scaleBlade1 (k : ℚ) d1)
      = (getSpeedThrustPerformance1 m d1).map (scalePoint (k : ℚ)) ∧
    getSpeedThrustPerformance2 m (scaleBlade2 (k : ℚ) d2)
      = (getSpeedThrustPerformance2 m d2).map (scalePoint (k : ℚ)) := by
  have hkq : (k : ℚ) ≠ 0 := Nat.cast_ne_zero.mpr (Nat.pos_iff_ne_zero.mp hk)
  constructor
  · simp only [getSpeedThrustPerformance1, scaleBlade1, List.map_map]
    apply List.map_congr_left
    intro i _
    simp only [Function.comp]
    exact mkSpeedPoint_scale _ _ _ _ _ _ _ hkq
  · simp only [getSpeedThrustPerformance2, scaleBlade2, List.map_map]
    apply List.map_congr_left
    intro i _
    simp only [Function.comp]
    exact mkSpeedPoint_scale _ _ _ _ _ _ _ hkq

/-- C5 witness: the amended scaling law applied with k = 2 to the
concrete probe configurations. -/
theorem C5_blade_scaling_witness :
    0 < 2 ∧
    (getSpeedThrustPerformance1 refMath (scaleBlade1 ((2 : ℕ) : ℚ) dC5)
        = (getSpeedThrustPerformance1 refMath dC5).map (scalePoint ((2 : ℕ) : ℚ)) ∧
      getSpeedThrustPerformance2 refMath (scaleBlade2 ((2 : ℕ) : ℚ) dC5b)
        = (getSpeedThrustPerformance2 refMath dC5b).map (scalePoint ((2 : ℕ) : ℚ))) :=
  ⟨by norm_num, C5_blade_scaling refMath dC5 dC5b 2 (by norm_num)⟩

/-- The speed-grid shape of a sweep result: nV+1 points, first reported
speed v0·3.6, last reported speed v1·3.6, and uniform spacing
(v1-v0)/nV in underlying m/s — i.e. 3.6·(v1-v0)/nV in the reported
km/h — between consecutive points. -/
def sweepSpeedsOK (pts : List SpeedPoint) (v0 v1 : ℚ) (nV : ℕ) : Prop :=
  pts.length = nV + 1 ∧
  (pts.map fun p => p.V).getD 0 0 = v0 * (36 / 10) ∧
  (pts.map fun p => p.V).getD nV 0 = v1 * (36 / 10) ∧
  ∀ i, i + 1 < pts.length →
    (pts.map fun p => p.V).getD (i + 1) 0
      = (pts.map fun p => p.V).getD i 0 + (36 / 10) * ((v1 - v0) / (nV : ℚ))

/-- Strict monotonicity of the reported forward speeds. -/
def sweepSpeedsMono (pts : List SpeedPoint) : Prop :=
  ∀ i, i + 1 < pts.length →
    (pts.map fun p => p.V).getD i 0 < (pts.map fun p => p.V).getD (i + 1) 0

theorem getD_range_map (n : ℕ) (f : ℕ → ℚ) (i : ℕ) (h : i < n) :
    ((List.range n).map f).getD i 0 = f i := by
  have hlen : i < ((List.range n).map f).length := by
    simpa using h
  rw [List.getD_eq_getElem _ 0 hlen]
  simp

theorem gSTP1_map_V (m : MathFns) (d : InitData1) :
    (getSpeedThrustPerformance1 m d).map (fun p => p.V)
      = (List.range (d.environment.nV + 1)).map
          (fun i : ℕ => (d.environment.v0
            + (i : ℚ) * ((d.environment.v1 - d.environment.v0) / (d.environment.nV : ℚ)))
            * (36 / 10)) := by
  simp [getSpeedThrustPerformance1, List.map_map, Function.comp, mkSpeedPoint]

theorem gSTP2_map_V (m : MathFns) (d : InitData2) :
    (getSpeedThrustPerformance2 m d).map (fun p => p.V)
      = (List.range (d.environment.nV + 1)).map
          (fun i : ℕ => (d.environment.v0
            + (i : ℚ) * ((d.environment.v1 - d.environment.v0) / (d.environment.nV : ℚ)))
            * (36 / 10)) := by
  simp [getSpeedThrustPerformance2, List.map_map, Function.comp, mkSpeedPoint]

theorem sweepSpeedsOK_of_map_V (pts : List SpeedPoint) (v0 v1 : ℚ) (nV : ℕ)
    (h1 : 1 ≤ nV)
    (hmap : pts.map (fun p => p.V)
      = (List.range (nV + 1)).map (fun i : ℕ => (v0 + (i : ℚ) * ((v1 - v0) / (nV : ℚ))) * (36 / 10))) :
    sweepSpeedsOK pts v0 v1 nV := by
  have hlen : pts.length = nV + 1 := by
    have := congrArg List.length hmap
    simpa using this
  refine ⟨hlen, ?_, ?_, ?_⟩
  · rw [hmap, getD_range_map (nV + 1) _ 0 (by omega)]
    norm_num
  · rw [hmap, getD_range_map (nV + 1) _ nV (by omega)]
    field_simp
  · intro i hi
    have hilen : i + 1 < nV + 1 := by omega
    rw [hmap, getD_range_map (nV + 1) _ (i + 1) hilen,
      getD_range_map (nV + 1) _ i (by omega)]
    push_cast
    ring

theorem sweepSpeedsMono_of_map_V (pts : List SpeedPoint) (v0 v1 : ℚ) (nV : ℕ)
    (h1 : 1 ≤ nV) (h2 : v0 < v1)
    (hmap : pts.map (fun p => p.V)
      = (List.range (nV + 1)).map (fun i : ℕ => (v0 + (i : ℚ) * ((v1 - v0) / (nV : ℚ))) * (36 / 10))) :
    sweepSpeedsMono pts := by
  have hnq : (0 : ℚ) < (nV : ℚ) := by exact_mod_cast h1
  have hdV : 0 < (v1 - v0) / (nV : ℚ) := div_pos (sub_pos.mpr h2) hnq
  have hlen : pts.length = nV + 1 := by
    have := congrArg List.length hmap
    simpa using this
  intro i hi
  have hilen : i + 1 < nV + 1 := by omega
  rw [hmap, getD_range_map (nV + 1) _ (i + 1) hilen,
    getD_range_map (nV + 1) _ i (by omega)]
  push_cast
  nlinarith [hdV]

/-- C6 amended: for every configuration with nV ≥ 1 (in both variants)
the sweep returns exactly nV+1 points, first reported speed v0·3.6,
last reported speed v1·3.6, and uniform spacing (v1-v0)/nV between
consecutive underlying speeds; and PROVIDED additionally v0 < v1, the
reported forward speeds are strictly increasing. -/
theorem C6_speed_grid (m : MathFns) (d1 : InitData1) (d2 : InitData2)
    (h1 : 1 ≤ d1.environment.nV) (h3 : 1 ≤ d2.environment.nV) :
    (sweepSpeedsOK (getSpeedThrustPerformance1 m d1)
        d1.environment.v0 d1.environment.v1 d1.environment.nV ∧
      (d1.environment.v0 < d1.environment.v1 →
        sweepSpeedsMono (getSpeedThrustPerformance1 m d1))) ∧
    (sweepSpeedsOK (getSpeedThrustPerformance2 m d2)
        d2.environment.v0 d2.environment.v1 d2.environment.nV ∧
      (d2.environment.v0 < d2.environment.v1 →
        sweepSpeedsMono (getSpeedThrustPerformance2 m d2))) :=
  ⟨⟨sweepSpeedsOK_of_map_V _ _ _ _ h1 (gSTP1_map_V m d1),
      fun h2 => sweepSpeedsMono_of_map_V _ _ _ _ h1 h2 (gSTP1_map_V m d1)⟩,
    ⟨sweepSpeedsOK_of_map_V _ _ _ _ h3 (gSTP2_map_V m d2),
      fun h4 => sweepSpeedsMono_of_map_V _ _ _ _ h3 h4 (gSTP2_map_V m d2)⟩⟩

/-- Probe configuration for the speed grid: nV = 1, v0 = 0, v1 = 1. -/
def dC6 : InitData1 := ⟨⟨0, [], [], [], [], []⟩, ⟨[], 0, [], []⟩, ⟨0, 0, 1, 1, 0⟩⟩

/-- Variant 2 analogue of the speed-grid probe configuration. -/
def dC6b : InitData2 := ⟨⟨0, [], [], [], [], []⟩, ⟨[], [], []⟩, ⟨0, 0, 1, 1, 0⟩⟩

/-- C6 witness: the amended speed-grid statement applied to the probe
configurations with nV = 1, v0 = 0, v1 = 1. -/
theorem C6_speed_grid_witness :
    1 ≤ dC6.environment.nV ∧ dC6.environment.v0 < dC6.environment.v1 ∧
    ((sweepSpeedsOK (getSpeedThrustPerformance1 refMath dC6) 0 1 1 ∧
        (dC6.environment.v0 < dC6.environment.v1 →
          sweepSpeedsMono (getSpeedThrustPerformance1 refMath dC6))) ∧
      (sweepSpeedsOK (getSpeedThrustPerformance2 refMath dC6b) 0 1 1 ∧
        (dC6b.environment.v0 < dC6b.environment.v1 →
          sweepSpeedsMono (getSpeedThrustPerformance2 refMath dC6b)))) :=
  ⟨le_refl 1, by norm_num [dC6], C6_speed_grid refMath dC6 dC6b (le_refl 1) (le_refl 1)⟩

/-- Configuration refuting the claim as stated: nV = 1 but v1 < v0. -/
def dC6bad : InitData1 := ⟨⟨0, [], [], [], [], []⟩, ⟨[], 0, [], []⟩, ⟨0, 1, 0, 1, 1⟩⟩

/-- C6 counterexample: with nV = 1 but v0 = 1 > v1 = 0, the sweep's two
reported speeds are 18/5 then 0 — strictly decreasing, so the forward
speeds are not monotonically increasing even though nV ≥ 1. -/
theorem C6_counterexample :
    ((getSpeedThrustPerformance1 refMath dC6bad).map fun p => p.V) = [18 / 5, 0] ∧
    ((getSpeedThrustPerformance1 refMath dC6bad).map fun p => p.V).getD 1 0
      < ((getSpeedThrustPerformance1 refMath dC6bad).map fun p => p.V).getD 0 0 ∧
    1 ≤ dC6bad.environment.nV := by
  have h : ((getSpeedThrustPerformance1 refMath dC6bad).map fun p => p.V) = [18 / 5, 0] := by
    rw [gSTP1_map_V]
    norm_num [dC6bad, List.range_succ]
  refine ⟨h, ?_, le_refl 1⟩
  rw [h]
  norm_num

/-- Degenerate configuration: zero blade count, empty radius table (tip
radius 0), and nV = 0 with v0 = v1. -/
def dC8 : InitData1 := ⟨⟨0, [], [], [], [], []⟩, ⟨[], 0, [], []⟩, ⟨1, 5, 5, 0, 1⟩⟩

/-- Variant 2 analogue of the degenerate configuration. -/
def dC8b : InitData2 := ⟨⟨0, [], [], [], [], []⟩, ⟨[], [], []⟩, ⟨1, 5, 5, 0, 1⟩⟩

/-- C8: the code performs no input validation.  On a configuration that
is degenerate on several of the claim's axes (zero blade count, zero
tip radius, nV = 0 with v0 = v1) both variants happily run the sweep
and return a fully computed 1-point table (thrust 0, with the division
by the zero disc area surfacing as a non-finite thrust coefficient)
instead of rejecting the input before computation. -/
theorem C8_no_validation :
    getSpeedThrustPerformance1 refMath dC8 = [⟨18, some 0, some 0, some 0, none, none⟩] ∧
    getSpeedThrustPerformance2 refMath dC8b = [⟨18, some 0, some 0, some 0, none, none⟩] := by
  constructor
  · norm_num [getSpeedThrustPerformance1, dC8, refMath, mkSpeedPoint,
      getSingleBladeForces1, getSpeedDistribution1, speedDistLoop1,
      updateSummary, jadd, jmul, jdiv, List.range_succ]
  · norm_num [getSpeedThrustPerformance2, dC8b, refMath, mkSpeedPoint,
      getSingleBladeForces2, getSpeedDistribution2, speedDistLoop2,
      updateSummary, jadd, jmul, jdiv, List.range_succ]

/-- C2: an interpolation query beyond the last breakpoint is NOT
surfaced as an error: the undefined lookup is coerced into the
arithmetic and the integrator returns normally with a non-finite (NaN)
totalThrust.  Concrete input (both variants): twist 10° everywhere
while the aerodynamic table only covers [0°, 1°], so every section's
lift-coefficient lookup falls beyond the table. -/
theorem C2_nan_propagation :
    (getSingleBladeForces1 refMath [0, 1] [10, 10] [1, 1] 0 1 0 1
        [0, 1] [0, 1] [0, 0] [] []).summary.totalThrust = none ∧
    (getSingleBladeForces2 refMath [0, 1] [10, 10] [1, 1] 1 0 1
        [0, 1] [0, 1] [0, 0] [] []).summary.totalThrust = none := by
  constructor
  · norm_num [getSingleBladeForces1, getSpeedDistribution1, speedDistLoop1, sectionForce1,
      updateSummary, interp, interpAux, jinterp, jadd, jsub, jmul, jdiv, refMath]
  · norm_num [getSingleBladeForces2, getSpeedDistribution2, speedDistLoop2, sectionForce2,
      updateSummary, interp, interpAux, jinterp, jadd, jsub, jmul, jdiv, refMath]

end AirScrew
